import Mathlib

/-!
Verification of the barcode-scan service (`backend/main.py`).

The service is a CRUD layer over a single table `scans(id, barcode, scanned_at)`
with four operations: create a scan, list scans with filters and pagination,
export filtered scans to a spreadsheet, and delete all scans.  This file embeds
the data model and the four handlers as pure Lean functions and proves the
behavioural properties stated in the specification.
-/

namespace BarcodeScan

/-- A calendar timestamp, mirroring a Python `datetime` value as stored in the
`scanned_at` column (date and wall-clock time, second precision as used by
the export formatting `%Y-%m-%d %H:%M:%S`). -/
structure DateTime where
  year : Nat
  month : Nat
  day : Nat
  hour : Nat
  minute : Nat
  second : Nat
deriving Repr, DecidableEq

/-- The comparison key of a timestamp: its fields, most significant first.
`datetime` values compare lexicographically on these fields. -/
def DateTime.fields (d : DateTime) : List Nat :=
  [d.year, d.month, d.day, d.hour, d.minute, d.second]

/-- Lexicographic `≤` on field lists (the order of `datetime` comparison). -/
def lexLe : List Nat → List Nat → Bool
  | [], _ => true
  | _ :: _, [] => false
  | a :: as, b :: bs => if a < b then true else if b < a then false else lexLe as bs

/-- Lexicographic `<` on field lists (the order of `datetime` comparison). -/
def lexLt : List Nat → List Nat → Bool
  | [], [] => false
  | [], _ :: _ => true
  | _ :: _, [] => false
  | a :: as, b :: bs => if a < b then true else if b < a then false else lexLt as bs

/-- Comparison `a ≤ b` on timestamps, as used by the filter
`scanned_at >= start_date`. -/
def DateTime.le (a b : DateTime) : Bool := lexLe a.fields b.fields

/-- Comparison `a < b` on timestamps, as used by the filter
`scanned_at < end_date`. -/
def DateTime.lt (a b : DateTime) : Bool := lexLt a.fields b.fields

/-- A persisted row of the `scans` table (`ScanDB` in the source): primary-key
`id`, the scanned `barcode` text, and the `scanned_at` timestamp. -/
structure ScanDB where
  id : Nat
  barcode : String
  scanned_at : DateTime
deriving Repr, DecidableEq

/-- The request body of the create operation (`ScanCreate` in the source).
The input schema accepts only the `barcode` field; in particular no
client-supplied timestamp can be expressed. -/
structure ScanCreate where
  barcode : String
deriving Repr, DecidableEq

/-- Database state: the rows of the `scans` table together with the
auto-increment counter of the integer primary key.

Modelled from the spec: the id generator itself lives in the storage engine,
not in `backend/main.py`; per the data model of the spec, ids are "assigned by
storage on creation, monotonic" and "never reused", so the counter persists
across deletes and only ever increases. -/
structure DB where
  table : List ScanDB
  nextId : Nat
deriving Repr, DecidableEq

/-- The freshly created database: empty table, ids starting at 1. -/
def DB.init : DB := { table := [], nextId := 1 }

/-- ASCII case folding as performed by the SQLite `LIKE` operator: the
letters `A`–`Z` fold to `a`–`z`; every other character (including non-ASCII
letters) is left unchanged. -/
def foldAscii (c : Char) : Char :=
  if 65 ≤ c.toNat ∧ c.toNat ≤ 90 then Char.ofNat (c.toNat + 32) else c

/-- Character comparison of `LIKE`: equality up to ASCII case folding. -/
def likeCharEq (a b : Char) : Bool := foldAscii a == foldAscii b

/-- Matching of a SQL `LIKE` pattern against a string, both as character
lists, with the SQLite default semantics (no ESCAPE clause): `%` matches any
sequence of zero or more characters, `_` matches exactly one character, and
any other pattern character matches one character equal to it up to ASCII
case folding. -/
def likeMatch : List Char → List Char → Bool
  | [], s => s.isEmpty
  | p :: ps, s =>
    if p = '%' then s.tails.any (fun t => likeMatch ps t)
    else match s with
      | [] => false
      | c :: t => (if p = '_' then true else likeCharEq p c) && likeMatch ps t

/-- Predicate on filter strings containing no `LIKE` wildcard: for such
strings the barcode filter is plain case-folded substring containment. -/
def wildcardFree (q : List Char) : Bool :=
  q.all (fun c => !(c == '%') && !(c == '_'))

/-- Semantics of the filter `ScanDB.barcode.contains(barcode_query)` in the
source: SQLAlchemy compiles it to `barcode LIKE` against the pattern
`%barcode_query%` — the filter string is wrapped in `%` wildcards without
escaping — and the SQLite backend evaluates `LIKE` case-insensitively for
ASCII letters, with any `%` or `_` inside the filter string still acting as
wildcards. -/
def barcodeContains (s : ScanDB) (q : String) : Bool :=
  likeMatch ('%' :: (q.toList ++ ['%'])) s.barcode.toList

/-- The sort relation of `order_by(ScanDB.scanned_at.desc())`: `a` comes no
later than `b` in the output when `b.scanned_at ≤ a.scanned_at`. -/
def descRel (a b : ScanDB) : Prop := DateTime.le b.scanned_at a.scanned_at = true

instance : DecidableRel descRel :=
  fun a b => inferInstanceAs (Decidable (DateTime.le b.scanned_at a.scanned_at = true))

/-- The filter pipeline of `read_scans` (the successive reassignments of the
local `query`): conjunctively apply the inclusive `start_date` lower bound,
the exclusive `end_date` upper bound, and the barcode substring filter, each
only when supplied (Python truthiness: a `None` datetime or a `None`/empty
barcode string skips the corresponding filter). -/
def read_scans_query (db : List ScanDB) (start_date end_date : Option DateTime)
    (barcode_query : Option String) : List ScanDB :=
  let query := db
  let query := match start_date with
    | some d => query.filter (fun s => DateTime.le d s.scanned_at)
    | none => query
  let query := match end_date with
    | some d => query.filter (fun s => DateTime.lt s.scanned_at d)
    | none => query
  let query := match barcode_query with
    | some q => if q.isEmpty then query else query.filter (fun s => barcodeContains s q)
    | none => query
  query

/-- Handler of `GET /scans/`: filter, sort descending by `scanned_at`, then
apply `offset(skip)` and `limit(limit)`. -/
def read_scans (db : List ScanDB) (skip limit : Nat) (start_date end_date : Option DateTime)
    (barcode_query : Option String) : List ScanDB :=
  (((read_scans_query db start_date end_date barcode_query).insertionSort descRel).drop
    skip).take limit

/-- The filter pipeline of `export_scans`; textually the same filter chain as
in `read_scans`, duplicated in the source. -/
def export_scans_query (db : List ScanDB) (start_date end_date : Option DateTime)
    (barcode_query : Option String) : List ScanDB :=
  let query := db
  let query := match start_date with
    | some d => query.filter (fun s => DateTime.le d s.scanned_at)
    | none => query
  let query := match end_date with
    | some d => query.filter (fun s => DateTime.lt s.scanned_at d)
    | none => query
  let query := match barcode_query with
    | some q => if q.isEmpty then query else query.filter (fun s => barcodeContains s q)
    | none => query
  query

/-- The local `scans_data` of `export_scans`: the filtered rows ordered
descending by `scanned_at`, with no pagination. -/
def export_scans_data (db : List ScanDB) (start_date end_date : Option DateTime)
    (barcode_query : Option String) : List ScanDB :=
  (export_scans_query db start_date end_date barcode_query).insertionSort descRel

/-- Left-pad the decimal rendering of `n` with zeros to two digits
(`%m`, `%d`, `%H`, `%M`, `%S`). -/
def pad2 (n : Nat) : String :=
  if n < 10 then "0" ++ toString n else toString n

/-- Left-pad the decimal rendering of `n` with zeros to four digits (`%Y`). -/
def pad4 (n : Nat) : String :=
  if n < 10 then "000" ++ toString n
  else if n < 100 then "00" ++ toString n
  else if n < 1000 then "0" ++ toString n
  else toString n

/-- Rendering of `scanned_at` used by the export: `strftime` with the format
string `%Y-%m-%d %H:%M:%S`. -/
def DateTime.strftime (d : DateTime) : String :=
  pad4 d.year ++ "-" ++ pad2 d.month ++ "-" ++ pad2 d.day ++ " " ++
    pad2 d.hour ++ ":" ++ pad2 d.minute ++ ":" ++ pad2 d.second

/-- A spreadsheet cell: the export writes the numeric `id` column and the
textual `barcode` and formatted `scanned_at` columns. -/
inductive Cell where
  | nat (n : Nat)
  | str (s : String)
deriving Repr, DecidableEq

/-- One worksheet: its name, its header row, and its data rows. -/
structure Sheet where
  name : String
  header : List String
  rows : List (List Cell)
deriving Repr, DecidableEq

/-- The in-memory spreadsheet document produced by the export. -/
structure ExcelFile where
  sheets : List Sheet
deriving Repr, DecidableEq

/-- An `HTTPException`: status code and detail string. -/
structure HTTPError where
  status : Nat
  detail : String
deriving Repr, DecidableEq

/-- Handler of `GET /scans/export/`: raise 404 when the filtered result set is empty,
otherwise build a single-sheet workbook named `Scans` whose header row is
`id, barcode, scanned_at` and whose data rows are the filtered records in
descending `scanned_at` order, with `scanned_at` formatted by `strftime`. -/
def export_scans (db : List ScanDB) (start_date end_date : Option DateTime)
    (barcode_query : Option String) : Except HTTPError ExcelFile :=
  let scans_data := export_scans_data db start_date end_date barcode_query
  if scans_data.isEmpty then
    .error { status := 404, detail := "No scans found for the given criteria." }
  else
    .ok { sheets := [{ name := "Scans",
                       header := ["id", "barcode", "scanned_at"],
                       rows := scans_data.map (fun s =>
                         [Cell.nat s.id, Cell.str s.barcode,
                          Cell.str s.scanned_at.strftime]) }] }

/-- Handler of `POST /scans/`: build the row from the request body, stamping `scanned_at`
with `datetime.utcnow()` (the parameter `now` is the server clock reading at
insertion time) and letting storage assign the next id; insert, commit, and
return the refreshed persisted record. -/
def create_scan (st : DB) (scan : ScanCreate) (now : DateTime) : DB × ScanDB :=
  let db_scan : ScanDB := { id := st.nextId, barcode := scan.barcode, scanned_at := now }
  ({ table := st.table ++ [db_scan], nextId := st.nextId + 1 }, db_scan)

/-- The success message of the delete-all operation for a count of `n`. -/
def mkDeleteMessage (n : Nat) : String :=
  "Successfully deleted " ++ toString n ++ " scan records."

/-- Handler of `DELETE /scans/`: delete every row and commit; `commitError = none` is the
successful run, returning the 200 message with the number of deleted rows,
while `commitError = some e` is a storage failure raised inside the `try`
block, in which case the session is rolled back (the table keeps its pre-call
contents) and a 500 error carrying the failure detail is raised. -/
def delete_all_scans (st : DB) (commitError : Option String) :
    DB × Except HTTPError String :=
  match commitError with
  | none =>
    let num_deleted := st.table.length
    ({ st with table := [] }, .ok (mkDeleteMessage num_deleted))
  | some e =>
    (st, .error { status := 500, detail := "Failed to delete records: " ++ e })

/-- Handler of `GET /scans/` as a state transformer: the handler only issues a
SELECT, so the table is returned unchanged alongside the response. -/
def read_scans_op (st : DB) (skip limit : Nat) (start_date end_date : Option DateTime)
    (barcode_query : Option String) : DB × List ScanDB :=
  (st, read_scans st.table skip limit start_date end_date barcode_query)

/-- Handler of `GET /scans/export/` as a state transformer: the handler only
issues a SELECT, so the table is returned unchanged alongside the response
(success or 404 alike). -/
def export_scans_op (st : DB) (start_date end_date : Option DateTime)
    (barcode_query : Option String) : DB × Except HTTPError ExcelFile :=
  (st, export_scans st.table start_date end_date barcode_query)

/-- A state-changing operation of the service: creating a scan (with the
server-clock reading at that moment) or deleting all scans.  The two read
operations never change state (`read_scans_op`, `export_scans_op`). -/
inductive Op where
  | create (barcode : String) (now : DateTime)
  | deleteAll
deriving Repr, DecidableEq

/-- Apply one operation to the database state. -/
def applyOp (st : DB) : Op → DB
  | .create b now => (create_scan st { barcode := b } now).1
  | .deleteAll => (delete_all_scans st none).1

/-- Run a sequence of operations from a starting state. -/
def runOps (st : DB) : List Op → DB
  | [] => st
  | op :: rest => runOps (applyOp st op) rest

/-- The ids assigned by storage over a run of operations, in order. -/
def opIds (st : DB) : List Op → List Nat
  | [] => []
  | .create b now :: rest => st.nextId :: opIds (applyOp st (.create b now)) rest
  | .deleteAll :: rest => opIds (applyOp st .deleteAll) rest

/-! Sample data used to instantiate the theorems on concrete inputs. -/

/-- Sample timestamp: 2024-01-01 10:30:00. -/
def sampleT1 : DateTime := ⟨2024, 1, 1, 10, 30, 0⟩

/-- Sample timestamp: 2024-01-02 10:30:00. -/
def sampleT2 : DateTime := ⟨2024, 1, 2, 10, 30, 0⟩

/-- Sample timestamp: 2024-01-03 10:30:00. -/
def sampleT3 : DateTime := ⟨2024, 1, 3, 10, 30, 0⟩

/-- Sample row with the earliest timestamp. -/
def sampleA : ScanDB := ⟨1, "A1", sampleT1⟩

/-- Sample row whose barcode contains `ABC` as an inner substring. -/
def sampleB : ScanDB := ⟨2, "xABCy", sampleT2⟩

/-- Sample row with the latest timestamp. -/
def sampleC : ScanDB := ⟨3, "B1", sampleT3⟩

/-- Sample table of three rows at strictly increasing timestamps. -/
def sampleDb : List ScanDB := [sampleA, sampleB, sampleC]

/-- Sample row whose barcode contains `abc` only in lower case: the `LIKE`
filter with the upper-case string `ABC` still matches it. -/
def sampleLower : ScanDB := ⟨1, "xabcy", sampleT1⟩

/-- The workbook the export produces on `sampleDb` with no filters. -/
def sampleWb : ExcelFile :=
  { sheets := [{ name := "Scans",
                 header := ["id", "barcode", "scanned_at"],
                 rows := [[Cell.nat 3, Cell.str "B1", Cell.str "2024-01-03 10:30:00"],
                          [Cell.nat 2, Cell.str "xABCy", Cell.str "2024-01-02 10:30:00"],
                          [Cell.nat 1, Cell.str "A1", Cell.str "2024-01-01 10:30:00"]] }] }

/-- Sample operation history: a create, a delete-all, then another create. -/
def sampleOps : List Op := [.create "A1" sampleT1, .deleteAll, .create "A2" sampleT2]

/-- The state reached by `sampleOps` followed by creating barcode `B1`. -/
def sampleSt : DB := ⟨[⟨2, "A2", sampleT2⟩, ⟨3, "B1", sampleT3⟩], 4⟩

/-- The record returned by creating barcode `B1` after `sampleOps`. -/
def sampleRec : ScanDB := ⟨3, "B1", sampleT3⟩

/-! Order lemmas for the timestamp comparison and the sort relation. -/

/-- Lexicographic `≤` is total. -/
theorem lexLe_total : ∀ xs ys : List Nat, (lexLe xs ys || lexLe ys xs) = true := by
  intro xs
  induction xs with
  | nil => intro ys; simp [lexLe]
  | cons a as ih =>
    intro ys
    cases ys with
    | nil => simp [lexLe]
    | cons b bs =>
      simp only [lexLe]
      rcases Nat.lt_trichotomy a b with h | h | h
      · simp [h]
      · subst h
        simpa [Nat.lt_irrefl] using ih bs
      · simp [h, Nat.lt_asymm h]

/-- Lexicographic `≤` is transitive. -/
theorem lexLe_trans :
    ∀ xs ys zs : List Nat, lexLe xs ys = true → lexLe ys zs = true → lexLe xs zs = true := by
  intro xs
  induction xs with
  | nil => intro ys zs _ _; simp [lexLe]
  | cons a as ih =>
    intro ys zs h1 h2
    cases ys with
    | nil => simp [lexLe] at h1
    | cons b bs =>
      cases zs with
      | nil => simp [lexLe] at h2
      | cons c cs =>
        simp only [lexLe] at h1 h2 ⊢
        split_ifs at h1 h2 ⊢ <;> try rfl
        all_goals try omega
        all_goals exact ih bs cs h1 h2

/-- Lexicographic `<` is irreflexive. -/
theorem lexLt_irrefl : ∀ xs : List Nat, lexLt xs xs = false := by
  intro xs
  induction xs with
  | nil => rfl
  | cons a as ih => simp [lexLt, ih]

instance : IsTrans ScanDB descRel where
  trans _ _ _ h1 h2 := lexLe_trans _ _ _ h2 h1

instance : IsTotal ScanDB descRel where
  total a b := by
    rcases (Bool.or_eq_true _ _).mp
        (lexLe_total (DateTime.fields b.scanned_at) (DateTime.fields a.scanned_at)) with h | h
    · exact Or.inl h
    · exact Or.inr h

/-! Lemmas on `LIKE` matching: for a wildcard-free filter string the pattern
`%q%` accepts exactly the strings containing `q` up to ASCII case folding. -/

/-- Unfolding of a leading `%` wildcard: the rest of the pattern must match
some suffix. -/
theorem likeMatch_wild (ps s : List Char) :
    likeMatch ('%' :: ps) s = s.tails.any (fun t => likeMatch ps t) := by
  simp [likeMatch]

/-- Unfolding of an ordinary pattern character against the empty string. -/
theorem likeMatch_cons_nil (p : Char) (ps : List Char) (hp : p ≠ '%') :
    likeMatch (p :: ps) [] = false := by
  simp [likeMatch, hp]

/-- Unfolding of an ordinary pattern character against a non-empty string. -/
theorem likeMatch_cons_cons (p : Char) (ps : List Char) (c : Char) (t : List Char)
    (hp : p ≠ '%') :
    likeMatch (p :: ps) (c :: t) =
      ((if p = '_' then true else likeCharEq p c) && likeMatch ps t) := by
  simp [likeMatch, hp]

/-- A wildcard-free pattern followed by `%` matches `s` exactly when the
case-folded pattern is a prefix of the case-folded string. -/
theorem likeMatch_append_wild_iff :
    ∀ q : List Char, wildcardFree q = true → ∀ s : List Char,
      (likeMatch (q ++ ['%']) s = true ↔ (q.map foldAscii) <+: (s.map foldAscii)) := by
  intro q
  induction q with
  | nil =>
    intro _ s
    rw [List.nil_append, likeMatch_wild]
    simp only [List.any_eq_true, List.map_nil]
    constructor
    · intro _
      exact List.nil_prefix
    · intro _
      exact ⟨[], (List.mem_tails [] s).mpr List.nil_suffix, rfl⟩
  | cons p ps ih =>
    intro hq s
    have hq' := hq
    simp only [wildcardFree, List.all_cons, Bool.and_eq_true, Bool.not_eq_true',
      beq_eq_false_iff_ne, ne_eq] at hq'
    obtain ⟨⟨hp, hp_⟩, hps⟩ := hq'
    cases s with
    | nil =>
      rw [List.cons_append, likeMatch_cons_nil _ _ hp]
      simp
    | cons c t =>
      rw [List.cons_append, likeMatch_cons_cons _ _ _ _ hp, if_neg hp_]
      simp [List.map_cons, List.cons_prefix_cons, likeCharEq, ih hps t]

/-- The pattern `%q%` for a wildcard-free `q` matches `s` exactly when the
case-folded `q` is a contiguous substring of the case-folded `s`. -/
theorem likeMatch_infix_iff (q : List Char) (hq : wildcardFree q = true) :
    ∀ s : List Char,
      (likeMatch ('%' :: (q ++ ['%'])) s = true ↔
        (q.map foldAscii) <:+: (s.map foldAscii)) := by
  intro s
  induction s with
  | nil =>
    rw [likeMatch_wild]
    simp only [List.tails, List.any_cons, List.any_nil, Bool.or_false, List.map_nil]
    rw [likeMatch_append_wild_iff q hq []]
    simp
  | cons c t ih =>
    rw [likeMatch_wild] at ih ⊢
    rw [List.tails_cons, List.any_cons, Bool.or_eq_true]
    rw [likeMatch_append_wild_iff q hq (c :: t)]
    rw [List.map_cons, List.infix_cons_iff, ← List.map_cons]
    constructor
    · rintro (h | h)
      · exact Or.inl (by simpa [List.map_cons] using h)
      · exact Or.inr (ih.mp h)
    · rintro (h | h)
      · exact Or.inl (by simpa [List.map_cons] using h)
      · exact Or.inr (ih.mpr h)

/-! Pipeline lemmas. -/

/-- Filtering never produces more rows than the table holds. -/
theorem read_scans_query_length_le (db : List ScanDB) (start_date end_date : Option DateTime)
    (barcode_query : Option String) :
    (read_scans_query db start_date end_date barcode_query).length ≤ db.length := by
  unfold read_scans_query
  cases start_date <;> cases end_date <;> cases barcode_query <;> simp only [] <;> try split
  all_goals first
  | exact Nat.le_refl _
  | exact List.length_filter_le _ _
  | exact le_trans (List.length_filter_le _ _) (List.length_filter_le _ _)
  | exact le_trans (List.length_filter_le _ _)
      (le_trans (List.length_filter_le _ _) (List.length_filter_le _ _))

/-- With `skip = 0` and a limit at least the table size, pagination is the
identity: listing returns the whole filtered, sorted result. -/
theorem read_scans_full (db : List ScanDB) (limit : Nat) (hL : db.length ≤ limit)
    (start_date end_date : Option DateTime) (barcode_query : Option String) :
    read_scans db 0 limit start_date end_date barcode_query =
      (read_scans_query db start_date end_date barcode_query).insertionSort descRel := by
  unfold read_scans
  rw [List.drop_zero]
  apply List.take_of_length_le
  rw [List.length_insertionSort]
  exact le_trans (read_scans_query_length_le db start_date end_date barcode_query) hL

/-- The sorted export data is empty exactly when the filtered set is empty. -/
theorem export_scans_data_eq_nil_iff (db : List ScanDB) (start_date end_date : Option DateTime)
    (barcode_query : Option String) :
    export_scans_data db start_date end_date barcode_query = [] ↔
      export_scans_query db start_date end_date barcode_query = [] := by
  constructor
  · intro h
    have hp := List.perm_insertionSort descRel (export_scans_query db start_date end_date barcode_query)
    rw [export_scans_data] at h
    rw [h] at hp
    exact hp.symm.eq_nil
  · intro h
    rw [export_scans_data, h]
    rfl

/-- Counterexample to C1 as stated: the barcode filter is not case-sensitive.
With the single stored record of barcode `xabcy`, listing with the filter
string `ABC` returns that record even though `ABC` is not a case-sensitive
substring of `xabcy` (SQLite evaluates `LIKE` case-insensitively for ASCII). -/
theorem read_scans_barcode_case_counterexample :
    sampleLower ∈ read_scans [sampleLower] 0 1 none none (some "ABC") ∧
    ¬ (("ABC" : String).toList <:+: sampleLower.barcode.toList) := by
  constructor
  · decide
  · decide

/-- C1 (amended): for every stored set of scans and every non-empty filter
string `q`, listing with `barcode = q` (no date filters, no pagination
truncation) returns exactly the records whose barcode matches the SQL `LIKE`
pattern `%q%` as SQLite evaluates it; when `q` contains no `%` or `_`
wildcard, these are exactly the records whose barcode contains `q` as a
contiguous substring up to ASCII case folding — including partial and
non-prefix matches — not case-sensitively. -/
theorem read_scans_barcode_filter_iff (db : List ScanDB) (q : String) (limit : Nat)
    (hq : q ≠ "") (hL : db.length ≤ limit) :
    (∀ r, r ∈ read_scans db 0 limit none none (some q) ↔
        r ∈ db ∧ barcodeContains r q = true) ∧
    (wildcardFree q.toList = true →
      ∀ r, r ∈ read_scans db 0 limit none none (some q) ↔
        r ∈ db ∧ (q.toList.map foldAscii) <:+: (r.barcode.toList.map foldAscii)) := by
  have hq' : q.isEmpty = false := by
    cases h : q.isEmpty
    · rfl
    · exact absurd ((String.isEmpty_iff q).mp h) hq
  have hmem : ∀ r, r ∈ read_scans db 0 limit none none (some q) ↔
      r ∈ db ∧ barcodeContains r q = true := by
    intro r
    rw [read_scans_full db limit hL, List.mem_insertionSort]
    simp [read_scans_query, hq', List.mem_filter]
  refine ⟨hmem, ?_⟩
  intro hw r
  rw [hmem r]
  have hchar := likeMatch_infix_iff q.toList hw r.barcode.toList
  exact and_congr_right fun _ => hchar

/-- Witness for C1 (amended): the upper-case filter string `ABC` matches the
record of barcode `xabcy` — a non-prefix inner occurrence up to ASCII case
folding. -/
theorem read_scans_barcode_filter_iff_witness :
    (("ABC" : String) ≠ "" ∧ ([sampleLower] : List ScanDB).length ≤ 1 ∧
      wildcardFree ("ABC" : String).toList = true) ∧
    (sampleLower ∈ read_scans [sampleLower] 0 1 none none (some "ABC") ↔
      sampleLower ∈ ([sampleLower] : List ScanDB) ∧
        (("ABC" : String).toList.map foldAscii) <:+:
          (sampleLower.barcode.toList.map foldAscii)) :=
  ⟨⟨by decide, by decide, by decide⟩,
    (read_scans_barcode_filter_iff [sampleLower] "ABC" 1 (by decide) (by decide)).2
      (by decide) sampleLower⟩

/-- C2: with `start_date = t1` and `end_date = t2` (no pagination truncation),
listing returns exactly the records with `t1 ≤ scanned_at < t2` — the lower
bound inclusive, the upper bound exclusive — and any record with
`scanned_at = t2` is excluded. -/
theorem read_scans_date_range_iff (db : List ScanDB) (t1 t2 : DateTime) (limit : Nat)
    (hL : db.length ≤ limit) :
    (∀ r, r ∈ read_scans db 0 limit (some t1) (some t2) none ↔
        r ∈ db ∧ DateTime.le t1 r.scanned_at = true ∧ DateTime.lt r.scanned_at t2 = true) ∧
    (∀ r, r.scanned_at = t2 → r ∉ read_scans db 0 limit (some t1) (some t2) none) := by
  have hmem : ∀ r, r ∈ read_scans db 0 limit (some t1) (some t2) none ↔
      r ∈ db ∧ DateTime.le t1 r.scanned_at = true ∧ DateTime.lt r.scanned_at t2 = true := by
    intro r
    rw [read_scans_full db limit hL, List.mem_insertionSort]
    simp [read_scans_query, List.mem_filter, and_assoc, and_comm, and_left_comm]
  refine ⟨hmem, ?_⟩
  intro r hr hin
  rcases (hmem r).mp hin with ⟨_, _, hlt⟩
  rw [hr] at hlt
  simp [DateTime.lt, lexLt_irrefl] at hlt

/-- Witness for C2: the record stamped exactly at the upper bound `sampleT3`
is excluded from the listing. -/
theorem read_scans_date_range_iff_witness :
    sampleDb.length ≤ 3 ∧
    sampleC ∉ read_scans sampleDb 0 3 (some sampleT1) (some sampleT3) none :=
  ⟨by decide,
    (read_scans_date_range_iff sampleDb sampleT1 sampleT3 3 (by decide)).2 sampleC (by decide)⟩

/-- C7: every listing is sorted descending by `scanned_at`, has length at most
`limit`, and is empty whenever `skip` exceeds the size of the filtered result
set. -/
theorem read_scans_ordering_pagination (db : List ScanDB) (skip limit : Nat)
    (start_date end_date : Option DateTime) (barcode_query : Option String) :
    (read_scans db skip limit start_date end_date barcode_query).Sorted descRel ∧
    (read_scans db skip limit start_date end_date barcode_query).length ≤ limit ∧
    ((read_scans_query db start_date end_date barcode_query).length < skip →
      read_scans db skip limit start_date end_date barcode_query = []) := by
  refine ⟨?_, ?_, ?_⟩
  · have hs := List.sorted_insertionSort descRel
      (read_scans_query db start_date end_date barcode_query)
    have hsub : List.Sublist (read_scans db skip limit start_date end_date barcode_query)
        ((read_scans_query db start_date end_date barcode_query).insertionSort descRel) := by
      unfold read_scans
      exact (List.take_sublist _ _).trans (List.drop_sublist _ _)
    exact List.Pairwise.sublist hsub hs
  · unfold read_scans
    rw [List.length_take]
    exact Nat.min_le_left _ _
  · intro h
    unfold read_scans
    rw [List.drop_eq_nil_of_le, List.take_nil]
    rw [List.length_insertionSort]
    omega

/-- Witness for C7: with only three matching rows, a `skip` of five yields an
empty page. -/
theorem read_scans_ordering_pagination_witness :
    read_scans sampleDb 5 10 none none none = [] :=
  (read_scans_ordering_pagination sampleDb 5 10 none none none).2.2 (by decide)

/-- C3: export fails with a 404 error if and only if the filtered result set
is empty; when at least one record matches, it returns a single-sheet workbook
whose header row is `id, barcode, scanned_at`, whose data-row count equals the
filtered set size, and in which every `scanned_at` cell is the `strftime`
rendering `YYYY-MM-DD HH:MM:SS` of the record timestamp. -/
theorem export_scans_spec (db : List ScanDB) (start_date end_date : Option DateTime)
    (barcode_query : Option String) :
    ((∃ e, export_scans db start_date end_date barcode_query = .error e ∧ e.status = 404) ↔
      export_scans_query db start_date end_date barcode_query = []) ∧
    (∀ wb, export_scans db start_date end_date barcode_query = .ok wb →
      wb.sheets.length = 1 ∧
      ∀ sh ∈ wb.sheets,
        sh.header = ["id", "barcode", "scanned_at"] ∧
        sh.rows.length = (export_scans_query db start_date end_date barcode_query).length ∧
        ∀ row ∈ sh.rows, ∃ s, s ∈ export_scans_query db start_date end_date barcode_query ∧
          row = [Cell.nat s.id, Cell.str s.barcode, Cell.str s.scanned_at.strftime]) := by
  by_cases h : (export_scans_data db start_date end_date barcode_query).isEmpty
  · have hnil : export_scans_query db start_date end_date barcode_query = [] :=
      (export_scans_data_eq_nil_iff _ _ _ _).mp (List.isEmpty_iff.mp h)
    have hexp : export_scans db start_date end_date barcode_query =
        .error { status := 404, detail := "No scans found for the given criteria." } := by
      simp only [export_scans]
      rw [if_pos h]
    refine ⟨⟨fun _ => hnil, fun _ => ⟨_, hexp, rfl⟩⟩, ?_⟩
    intro wb hwb
    rw [hexp] at hwb
    exact Except.noConfusion hwb
  · have hne : export_scans_data db start_date end_date barcode_query ≠ [] := by
      intro hh
      rw [hh] at h
      exact h rfl
    have hexp : export_scans db start_date end_date barcode_query =
        .ok { sheets := [{ name := "Scans",
                           header := ["id", "barcode", "scanned_at"],
                           rows := (export_scans_data db start_date end_date barcode_query).map
                             (fun s => [Cell.nat s.id, Cell.str s.barcode,
                                        Cell.str s.scanned_at.strftime]) }] } := by
      simp only [export_scans]
      rw [if_neg h]
    refine ⟨⟨?_, ?_⟩, ?_⟩
    · rintro ⟨e, he, -⟩
      rw [hexp] at he
      exact Except.noConfusion he
    · intro hnil
      exact absurd ((export_scans_data_eq_nil_iff _ _ _ _).mpr hnil) hne
    · intro wb hwb
      rw [hexp] at hwb
      obtain rfl := Except.ok.inj hwb
      refine ⟨rfl, ?_⟩
      intro sh hsh
      rw [List.mem_singleton] at hsh
      subst hsh
      refine ⟨rfl, ?_, ?_⟩
      · simp [export_scans_data, List.length_insertionSort]
      · intro row hrow
        rw [List.mem_map] at hrow
        obtain ⟨s, hs, rfl⟩ := hrow
        rw [export_scans_data, List.mem_insertionSort] at hs
        exact ⟨s, hs, rfl⟩

/-- Witness for C3: the export of the three-row sample table is the concrete
single-sheet workbook `sampleWb`, and it satisfies all the stated sheet
properties. -/
theorem export_scans_spec_witness :
    sampleWb.sheets.length = 1 ∧
    ∀ sh ∈ sampleWb.sheets,
      sh.header = ["id", "barcode", "scanned_at"] ∧
      sh.rows.length = (export_scans_query sampleDb none none none).length ∧
      ∀ row ∈ sh.rows, ∃ s, s ∈ export_scans_query sampleDb none none none ∧
        row = [Cell.nat s.id, Cell.str s.barcode, Cell.str s.scanned_at.strftime] :=
  (export_scans_spec sampleDb none none none).2 sampleWb (by rfl)

/-- C9: for every filter combination, the records the export serializes are
exactly the records the list operation returns for the same filters with
pagination removed (`skip = 0`, limit at least the result size), in the same
descending `scanned_at` order. -/
theorem export_matches_unpaginated_read (db : List ScanDB)
    (start_date end_date : Option DateTime) (barcode_query : Option String) (limit : Nat)
    (hL : (export_scans_data db start_date end_date barcode_query).length ≤ limit) :
    read_scans db 0 limit start_date end_date barcode_query =
      export_scans_data db start_date end_date barcode_query := by
  have hq : read_scans_query db start_date end_date barcode_query =
      export_scans_query db start_date end_date barcode_query := rfl
  rw [export_scans_data, List.length_insertionSort] at hL
  unfold read_scans export_scans_data
  rw [List.drop_zero, hq]
  apply List.take_of_length_le
  rw [List.length_insertionSort]
  exact hL

/-- Witness for C9: on the sample table with no filters, the listing with
`skip = 0` and a sufficient limit equals the export data. -/
theorem export_matches_unpaginated_read_witness :
    (export_scans_data sampleDb none none none).length ≤ 3 ∧
    read_scans sampleDb 0 3 none none none = export_scans_data sampleDb none none none :=
  ⟨by decide, export_matches_unpaginated_read sampleDb none none none 3 (by decide)⟩

/-- C4: creating a scan stamps `scanned_at` with the server clock reading at
insertion time (the input schema carries only `barcode`, so no client value
can reach the timestamp), and returns the full persisted record — the
submitted barcode, the storage-assigned id — which is indeed in the table. -/
theorem create_scan_spec (st : DB) (input : ScanCreate) (now : DateTime) :
    (create_scan st input now).2.scanned_at = now ∧
    (create_scan st input now).2.barcode = input.barcode ∧
    (create_scan st input now).2.id = st.nextId ∧
    (create_scan st input now).1.table = st.table ++ [(create_scan st input now).2] ∧
    (create_scan st input now).2 ∈ (create_scan st input now).1.table := by
  refine ⟨rfl, rfl, rfl, rfl, ?_⟩
  simp [create_scan]

/-- Applying one operation never decreases the id counter. -/
theorem nextId_le_applyOp (st : DB) (op : Op) : st.nextId ≤ (applyOp st op).nextId := by
  cases op with
  | create b now => simp [applyOp, create_scan]
  | deleteAll => simp [applyOp, delete_all_scans]

/-- Running any operation sequence never decreases the id counter. -/
theorem nextId_le_runOps : ∀ (ops : List Op) (st : DB), st.nextId ≤ (runOps st ops).nextId := by
  intro ops
  induction ops with
  | nil => intro st; exact Nat.le_refl _
  | cons op rest ih =>
    intro st
    simp only [runOps]
    exact le_trans (nextId_le_applyOp st op) (ih (applyOp st op))

/-- Every id assigned during a run is below the final id counter. -/
theorem opIds_lt_runOps_nextId :
    ∀ (ops : List Op) (st : DB) (i : Nat), i ∈ opIds st ops → i < (runOps st ops).nextId := by
  intro ops
  induction ops with
  | nil => intro st i hi; simp [opIds] at hi
  | cons op rest ih =>
    intro st i hi
    simp only [runOps]
    cases op with
    | create b now =>
      simp only [opIds, List.mem_cons] at hi
      rcases hi with rfl | hi
      · have h1 : st.nextId < (applyOp st (.create b now)).nextId := by
          simp [applyOp, create_scan]
        exact lt_of_lt_of_le h1 (nextId_le_runOps rest (applyOp st (.create b now)))
      · exact ih (applyOp st (.create b now)) i hi
    | deleteAll =>
      simp only [opIds] at hi
      exact ih (applyOp st .deleteAll) i hi

/-- C5: after any prior operation history (creates and delete-alls, from the
fresh database), creating a scan yields a record with the submitted barcode
that appears in an unfiltered listing, whose id is strictly greater than every
previously assigned id; in particular no id is ever reused. -/
theorem create_after_history_spec (ops : List Op) (b : String) (now : DateTime) (limit : Nat)
    (st' : DB) (rec : ScanDB)
    (hrun : create_scan (runOps DB.init ops) { barcode := b } now = (st', rec))
    (hL : st'.table.length ≤ limit) :
    rec.barcode = b ∧
    rec ∈ read_scans st'.table 0 limit none none none ∧
    (∀ i ∈ opIds DB.init ops, i < rec.id) ∧
    rec.id ∉ opIds DB.init ops := by
  simp only [create_scan] at hrun
  injection hrun with hst hrec
  subst hst
  subst hrec
  refine ⟨rfl, ?_, ?_, ?_⟩
  · rw [read_scans_full _ limit hL, List.mem_insertionSort]
    simp [read_scans_query]
  · intro i hi
    exact opIds_lt_runOps_nextId ops DB.init i hi
  · intro hmem
    exact absurd (opIds_lt_runOps_nextId ops DB.init _ hmem) (lt_irrefl _)

/-- Witness for C5: a create after a history containing a delete-all still
gets a fresh id (3) strictly above the previously assigned ids (1 and 2). -/
theorem create_after_history_spec_witness :
    (create_scan (runOps DB.init sampleOps) { barcode := "B1" } sampleT3 =
        (sampleSt, sampleRec) ∧
      sampleSt.table.length ≤ 2) ∧
    (sampleRec.barcode = "B1" ∧
      sampleRec ∈ read_scans sampleSt.table 0 2 none none none ∧
      (∀ i ∈ opIds DB.init sampleOps, i < sampleRec.id) ∧
      sampleRec.id ∉ opIds DB.init sampleOps) :=
  ⟨⟨by decide, by decide⟩,
    create_after_history_spec sampleOps "B1" sampleT3 2 sampleSt sampleRec
      (by decide) (by decide)⟩

/-- C6: a successful delete-all reports the count of records that existed
immediately before the call, leaves the table empty, and a subsequent listing
with no filters (any pagination) returns the empty sequence. -/
theorem delete_all_scans_success_spec (st : DB) (skip limit : Nat) :
    (delete_all_scans st none).2 = .ok (mkDeleteMessage st.table.length) ∧
    (delete_all_scans st none).1.table = [] ∧
    read_scans (delete_all_scans st none).1.table skip limit none none none = [] := by
  refine ⟨rfl, rfl, ?_⟩
  simp [delete_all_scans, read_scans, read_scans_query]

/-- C8: a storage failure during delete-all rolls the transaction back — the
table is left exactly as before the call — and surfaces a 500 error carrying
the failure detail string. -/
theorem delete_all_scans_failure_spec (st : DB) (e : String) :
    (delete_all_scans st (some e)).1 = st ∧
    (delete_all_scans st (some e)).1.table = st.table ∧
    (delete_all_scans st (some e)).2 =
      .error { status := 500, detail := "Failed to delete records: " ++ e } :=
  ⟨rfl, rfl, rfl⟩

/-- C10: the list and export operations never modify stored state — the table
after either call (success or 404 alike) is identical to the table before. -/
theorem read_export_no_state_change (st : DB) (skip limit : Nat)
    (start_date end_date : Option DateTime) (barcode_query : Option String) :
    (read_scans_op st skip limit start_date end_date barcode_query).1 = st ∧
    (export_scans_op st start_date end_date barcode_query).1 = st :=
  ⟨rfl, rfl⟩

end BarcodeScan
